import Mathlib

/-!
Verification development for the gopixi Dimension/Axis metadata codec.

The Go sources embedded here are dimension.go (two historic versions: one with a
separate Axis pointer, one with the axis fields inlined into Dimension), axis.go
and a second axis file of unknown name. The stream Header collaborator and the
ChannelType registry are not part of the shown sources; they are modelled from
the written specification, as marked on each such definition. Values of a
channel kind are represented throughout by their bit patterns: a natural number
below 256 to the power of the kind width in bytes.
-/

namespace Gopixi

/-- A byte is a natural number below 256; every encoder here only emits such values. -/
abbrev Byte := Nat

/-- Modelled from the spec: the byte-order selector supplied by the stream Header. -/
inductive ByteOrder where
  | little
  | big
deriving DecidableEq, Repr

/-- Little-endian encoding of a natural number in exactly w bytes, truncating above
256 to the w. -/
def natToLE : Nat → Nat → List Byte
  | 0, _ => []
  | w + 1, n => n % 256 :: natToLE w (n / 256)

/-- Little-endian decoding of a byte list. -/
def leToNat : List Byte → Nat
  | [] => 0
  | b :: bs => b + 256 * leToNat bs

/-- Modelled from the spec: fixed-width byte-order-aware encoding of a natural number,
the primitive under every multi-byte field the Header collaborator writes. -/
def encodeNat (bo : ByteOrder) (w n : Nat) : List Byte :=
  match bo with
  | .little => natToLE w n
  | .big => (natToLE w n).reverse

/-- Modelled from the spec: byte-order-aware decoding, inverse of encodeNat. -/
def decodeNat (bo : ByteOrder) (bs : List Byte) : Nat :=
  match bo with
  | .little => leToNat bs
  | .big => leToNat bs.reverse

/-- Reading exactly w bytes from the front of a stream; none on a truncated stream. -/
def readBytes (w : Nat) (s : List Byte) : Option (List Byte × List Byte) :=
  if w ≤ s.length then some (s.take w, s.drop w) else none

theorem natToLE_length (w n : Nat) : (natToLE w n).length = w := by
  induction w generalizing n with
  | zero => rfl
  | succ w ih => simp [natToLE, ih]

theorem encodeNat_length (bo : ByteOrder) (w n : Nat) : (encodeNat bo w n).length = w := by
  cases bo <;> simp [encodeNat, natToLE_length]

theorem leToNat_natToLE (w n : Nat) : leToNat (natToLE w n) = n % 256 ^ w := by
  induction w generalizing n with
  | zero => simp [natToLE, leToNat, Nat.mod_one]
  | succ w ih =>
      have hM : 0 < 256 ^ w := pow_pos (by norm_num) w
      have h1 : n % 256 < 256 := Nat.mod_lt _ (by norm_num)
      have h2 : n / 256 % 256 ^ w < 256 ^ w := Nat.mod_lt _ hM
      have e1 : 256 * (n / 256) + n % 256 = n := Nat.div_add_mod n 256
      have e2 : 256 ^ w * (n / 256 / 256 ^ w) + n / 256 % 256 ^ w = n / 256 :=
        Nat.div_add_mod (n / 256) (256 ^ w)
      have hlt : n % 256 + 256 * (n / 256 % 256 ^ w) < 256 * 256 ^ w := by omega
      have hsplit : n = 256 * 256 ^ w * (n / 256 / 256 ^ w)
          + (n % 256 + 256 * (n / 256 % 256 ^ w)) := by
        rw [Nat.mul_assoc]
        omega
      calc leToNat (natToLE (w + 1) n)
          = n % 256 + 256 * (n / 256 % 256 ^ w) := by simp [natToLE, leToNat, ih]
        _ = (256 * 256 ^ w * (n / 256 / 256 ^ w)
              + (n % 256 + 256 * (n / 256 % 256 ^ w))) % (256 * 256 ^ w) := by
            rw [Nat.mul_add_mod, Nat.mod_eq_of_lt hlt]
        _ = n % 256 ^ (w + 1) := by rw [← hsplit, pow_succ, Nat.mul_comm (256 ^ w) 256]

theorem decodeNat_encodeNat (bo : ByteOrder) (w n : Nat) :
    decodeNat bo (encodeNat bo w n) = n % 256 ^ w := by
  cases bo <;> simp [encodeNat, decodeNat, leToNat_natToLE]

theorem take_len_append (xs r : List Byte) : (xs ++ r).take xs.length = xs := by
  induction xs with
  | nil => simp
  | cons x xs ih => simp [ih]

theorem drop_len_append (xs r : List Byte) : (xs ++ r).drop xs.length = r := by
  induction xs with
  | nil => simp
  | cons x xs ih => simp [ih]

theorem readBytes_append (w : Nat) (xs r : List Byte) (hw : xs.length = w) :
    readBytes w (xs ++ r) = some (xs, r) := by
  subst hw
  unfold readBytes
  rw [if_pos (by simp)]
  rw [take_len_append, drop_len_append]

/-- Modelled from the spec: the stream Header collaborator carries the byte order
and the width in bytes of the offset fields (4 or 8). -/
structure Header where
  byteOrder : ByteOrder
  offsetSize : Nat
deriving DecidableEq, Repr

/-- Modelled from the spec: WriteFriendly emits a 2-byte length followed by the
string bytes. Strings are modelled as their byte lists. -/
def Header.writeFriendly (h : Header) (s : List Byte) : List Byte :=
  encodeNat h.byteOrder 2 s.length ++ s

/-- Modelled from the spec: ReadFriendly reads a 2-byte length, then that many bytes. -/
def Header.readFriendly (h : Header) (st : List Byte) : Option (List Byte × List Byte) :=
  match readBytes 2 st with
  | none => none
  | some (lb, rest) => readBytes (decodeNat h.byteOrder lb) rest

/-- Modelled from the spec: WriteOffset emits an integer in offsetSize bytes,
truncated to that width (two-complement style via the nonnegative remainder). -/
def Header.writeOffset (h : Header) (n : Int) : List Byte :=
  encodeNat h.byteOrder h.offsetSize (Int.toNat (n % (256 ^ h.offsetSize : Nat)))

/-- Modelled from the spec: ReadOffset reads offsetSize bytes as a nonnegative integer.
The verified paths only carry values well below the signed range of the field. -/
def Header.readOffset (h : Header) (st : List Byte) : Option (Int × List Byte) :=
  match readBytes h.offsetSize st with
  | none => none
  | some (bs, rest) => some ((decodeNat h.byteOrder bs : Nat), rest)

/-- Kind code for the absent type. The spec requires the no-axis case to collapse to
the Unknown tag with both flags clear. -/
def ChannelUnknown : Nat := 0

def ChannelInt8 : Nat := 1
def ChannelUint8 : Nat := 2
def ChannelInt16 : Nat := 3
def ChannelUint16 : Nat := 4
def ChannelInt32 : Nat := 5
def ChannelUint32 : Nat := 6
def ChannelInt64 : Nat := 7
def ChannelUint64 : Nat := 8
def ChannelFloat8 : Nat := 9
def ChannelFloat16 : Nat := 10
def ChannelBFloat16 : Nat := 11
def ChannelFloat32 : Nat := 12
def ChannelFloat64 : Nat := 13
def ChannelFloat128 : Nat := 14
def ChannelInt128 : Nat := 15
def ChannelUint128 : Nat := 16
def ChannelBool : Nat := 17

/-- Modelled from the spec: Base extracts the kind, stripping the flag bits. -/
def ChannelType.Base (t : Nat) : Nat := t % 65536

/-- Modelled from the spec: HasMin reads the minimum-presence flag bit. -/
def ChannelType.HasMin (t : Nat) : Bool := t / 65536 % 2 == 1

/-- Modelled from the spec: HasMax reads the step-presence flag bit (historic name). -/
def ChannelType.HasMax (t : Nat) : Bool := t / 131072 % 2 == 1

/-- Modelled from the spec: WithMin sets or clears the minimum flag bit without
disturbing the base kind or the other flag. -/
def ChannelType.WithMin (t : Nat) (b : Bool) : Nat :=
  t % 65536 + (if b then 65536 else 0) + 131072 * (t / 131072)

/-- Modelled from the spec: WithMax sets or clears the step flag bit without
disturbing the base kind or the other flag. -/
def ChannelType.WithMax (t : Nat) (b : Bool) : Nat :=
  t % 131072 + (if b then 131072 else 0) + 262144 * (t / 262144)

/-- Modelled from the spec: the fixed byte width of each kind (1 through 16 bytes),
0 for Unknown and for unassigned codes. -/
def ChannelType.Size (t : Nat) : Nat :=
  match t with
  | 1 => 1   -- Int8
  | 2 => 1   -- Uint8
  | 3 => 2   -- Int16
  | 4 => 2   -- Uint16
  | 5 => 4   -- Int32
  | 6 => 4   -- Uint32
  | 7 => 8   -- Int64
  | 8 => 8   -- Uint64
  | 9 => 1   -- Float8
  | 10 => 2  -- Float16
  | 11 => 2  -- BFloat16
  | 12 => 4  -- Float32
  | 13 => 8  -- Float64
  | 14 => 16 -- Float128
  | 15 => 16 -- Int128
  | 16 => 16 -- Uint128
  | 17 => 1  -- Bool
  | _ => 0   -- Unknown and unassigned codes

/-- Modelled from the spec: PutValue encodes the bit pattern of a value of the kind
in exactly its byte width, honoring the byte order. -/
def ChannelType.PutValue (t : Nat) (bo : ByteOrder) (v : Nat) : List Byte :=
  encodeNat bo (ChannelType.Size t) v

/-- Modelled from the spec: Value decodes bytes back into the bit pattern of the kind. -/
def ChannelType.Value (t : Nat) (bs : List Byte) (bo : ByteOrder) : Nat :=
  decodeNat bo bs

/-- Modelled from the spec: the Header writes the 4-byte encoded type tag. -/
def Header.writeTag (h : Header) (t : Nat) : List Byte :=
  encodeNat h.byteOrder 4 t

/-- Modelled from the spec: the Header reads the 4-byte encoded type tag. -/
def Header.readTag (h : Header) (st : List Byte) : Option (Nat × List Byte) :=
  match readBytes 4 st with
  | none => none
  | some (bs, rest) => some (decodeNat h.byteOrder bs, rest)

/-- Error string from dimension.go for a nonpositive size or tile size. -/
def errDimSize : String := "dimension size and tile size must be greater than 0"

/-- Error string from dimension.go for a tile size exceeding the total size. -/
def errDimTile : String := "dimension tile size cannot be larger than dimension total size"

/-- Error string shared by both axis writers for a typed axis missing minimum or step. -/
def errAxisMinStep : String := "axis with type must have both minimum and step values"

/-- Error string from axis.go for a present axis whose base kind is Unknown. -/
def errAxisUnknown : String := "axis type ChannelUnknown is invalid when axis metadata is present"

/-- Dimension from the inlined layout of dimension.go: name, size, tile size, and the
axis fields folded in. The Go field Type is called Typ here since Type is reserved in
Lean; Minimum and Step hold the bit pattern of the value when present. -/
structure Dimension where
  Name : List Byte
  Size : Int
  TileSize : Int
  Typ : Nat
  Minimum : Option Nat
  Step : Option Nat
deriving DecidableEq, Repr

/-- HeaderSize from dimension.go (inlined layout): base size plus 4 bytes for the
flagged type tag plus the kind width for each present optional value. -/
def Dimension.HeaderSize (d : Dimension) (h : Header) : Nat :=
  2 + d.Name.length + 2 * h.offsetSize + 4
    + (if d.Minimum.isSome ∧ d.Typ ≠ ChannelUnknown then ChannelType.Size (ChannelType.Base d.Typ) else 0)
    + (if d.Step.isSome ∧ d.Typ ≠ ChannelUnknown then ChannelType.Size (ChannelType.Base d.Typ) else 0)

/-- Division as the Go / operator on int: defined only for a nonzero divisor,
truncating toward zero; none models the runtime fault. -/
def goDiv (a b : Int) : Option Int :=
  if b = 0 then none else some (Int.tdiv a b)

/-- Remainder as the Go % operator on int: defined only for a nonzero divisor. -/
def goMod (a b : Int) : Option Int :=
  if b = 0 then none else some (Int.tmod a b)

/-- Tiles from dimension.go: the quotient of size by tile size, incremented by one
when the remainder is nonzero. No validation is performed here. -/
def Dimension.Tiles (d : Dimension) : Option Int :=
  match goDiv d.Size d.TileSize, goMod d.Size d.TileSize with
  | some tiles, some r => if r ≠ 0 then some (tiles + 1) else some tiles
  | _, _ => none

/-- Write from dimension.go (inlined layout): validate size and tile size, then emit
name, size, tile size, the flagged type tag, and the present optional values. The
first component is the error, the second the bytes that reached the stream. -/
def Dimension.Write (d : Dimension) (h : Header) : Option String × List Byte :=
  if d.Size ≤ 0 ∨ d.TileSize ≤ 0 then (some errDimSize, [])
  else if d.Size < d.TileSize then (some errDimTile, [])
  else
    let flagged := ChannelType.WithMax (ChannelType.WithMin d.Typ d.Minimum.isSome) d.Step.isSome
    let axisType := if d.Typ = ChannelUnknown then ChannelUnknown else flagged
    let minBytes :=
      match d.Minimum with
      | some m => if d.Typ ≠ ChannelUnknown then ChannelType.PutValue (ChannelType.Base d.Typ) h.byteOrder m else []
      | none => []
    let stepBytes :=
      match d.Step with
      | some s => if d.Typ ≠ ChannelUnknown then ChannelType.PutValue (ChannelType.Base d.Typ) h.byteOrder s else []
      | none => []
    (none, h.writeFriendly d.Name ++ h.writeOffset d.Size ++ h.writeOffset d.TileSize
      ++ h.writeTag axisType ++ minBytes ++ stepBytes)

/-- Helper mirroring the two conditional value reads in Dimension.Read: when the flag
holds, consume the kind width and decode the pattern, otherwise leave absence. -/
def readValueIf (flag : Bool) (t : Nat) (bo : ByteOrder) (s : List Byte) :
    Option (Option Nat × List Byte) :=
  if flag then
    match readBytes (ChannelType.Size t) s with
    | none => none
    | some (bs, rest) => some (some (ChannelType.Value t bs bo), rest)
  else some (none, s)

/-- Read from dimension.go (inlined layout): decode name, size, tile size, the flagged
tag, then conditionally the minimum and step patterns. -/
def Dimension.Read (h : Header) (st : List Byte) : Option (Dimension × List Byte) :=
  match h.readFriendly st with
  | none => none
  | some (name, s1) =>
    match h.readOffset s1 with
    | none => none
    | some (size, s2) =>
      match h.readOffset s2 with
      | none => none
      | some (tileSize, s3) =>
        match h.readTag s3 with
        | none => none
        | some (encodedType, s4) =>
          let base := ChannelType.Base encodedType
          match readValueIf (ChannelType.HasMin encodedType && !(base == ChannelUnknown)) base h.byteOrder s4 with
          | none => none
          | some (minimum, s5) =>
            match readValueIf (ChannelType.HasMax encodedType && !(base == ChannelUnknown)) base h.byteOrder s5 with
            | none => none
            | some (step, s6) =>
              some ({ Name := name, Size := size, TileSize := tileSize,
                      Typ := base, Minimum := minimum, Step := step }, s6)

/-- Axis metadata as in axis.go and the unnamed axis file: kind, optional minimum and
step bit patterns, and a unit label. The Go field Type is called Typ here. -/
structure Axis where
  Typ : Nat
  Minimum : Option Nat
  Step : Option Nat
  Unit : List Byte
deriving DecidableEq, Repr

/-- Result of the kind-dispatched axis arithmetic. Integer and Bool kinds yield the
bit pattern of the result; float kinds are kept symbolic, since IEEE arithmetic is
not modelled, recording the kind and the operands of the multiply-add. -/
inductive AxisVal where
  | intVal (pattern : Nat)
  | boolVal (pattern : Nat)
  | floatVal (kind : Nat) (index minimum step : Nat)
deriving DecidableEq, Repr

/-- Kind-dispatched computation of i times step plus minimum, as the switch that
appears identically in the AxisValue of the unnamed axis file and the StepValue of
axis.go. Each integer branch first truncates the index to the kind width, as the Go
conversion does, then multiplies and adds with wraparound in that width. The 128-bit
branches widen the index through a 64-bit word with the high word zero. -/
def ChannelType.AxisValue (t : Nat) (i : Nat) (minimum step : Nat) : Option AxisVal :=
  match ChannelType.Base t with
  | 1 => some (.intVal ((i % 256 * step + minimum) % 256))                -- Int8
  | 2 => some (.intVal ((i % 256 * step + minimum) % 256))                -- Uint8
  | 3 => some (.intVal ((i % 65536 * step + minimum) % 65536))            -- Int16
  | 4 => some (.intVal ((i % 65536 * step + minimum) % 65536))            -- Uint16
  | 5 => some (.intVal ((i % 4294967296 * step + minimum) % 4294967296))  -- Int32
  | 6 => some (.intVal ((i % 4294967296 * step + minimum) % 4294967296))  -- Uint32
  | 7 => some (.intVal ((i % 18446744073709551616 * step + minimum) % 18446744073709551616)) -- Int64
  | 8 => some (.intVal ((i % 18446744073709551616 * step + minimum) % 18446744073709551616)) -- Uint64
  | 9 => some (.floatVal 9 i minimum step)    -- Float8
  | 10 => some (.floatVal 10 i minimum step)  -- Float16
  | 11 => some (.floatVal 11 i minimum step)  -- BFloat16
  | 12 => some (.floatVal 12 i minimum step)  -- Float32
  | 13 => some (.floatVal 13 i minimum step)  -- Float64
  | 14 => some (.floatVal 14 i minimum step)  -- Float128
  | 15 => some (.intVal ((i % 18446744073709551616 * step + minimum)
      % 340282366920938463463374607431768211456))                        -- Int128
  | 16 => some (.intVal ((i % 18446744073709551616 * step + minimum)
      % 340282366920938463463374607431768211456))                        -- Uint128
  | 17 => some (.boolVal minimum)             -- Bool: the minimum, unconditionally
  | _ => none

/-- AxisValue from dimension.go (inlined layout): absence for an Unknown kind or a
missing minimum or step, else the kind-dispatched arithmetic. -/
def Dimension.AxisValue (d : Dimension) (i : Nat) : Option AxisVal :=
  if d.Typ = ChannelUnknown ∨ d.Minimum = none ∨ d.Step = none then none
  else ChannelType.AxisValue d.Typ i (d.Minimum.getD 0) (d.Step.getD 0)

namespace Part000

/-- Write from the unnamed axis file: a nil axis writes nothing; a present axis with a
non-Unknown type and a missing minimum or step is a format error before any byte is
written; otherwise the unit string is emitted, then the minimum and step patterns in
the base kind width (zero bytes each when the type is Unknown). -/
def axisWrite (a : Option Axis) (h : Header) : Option String × List Byte :=
  match a with
  | none => (none, [])
  | some a =>
    if a.Typ ≠ ChannelUnknown ∧ (a.Minimum = none ∨ a.Step = none) then
      (some errAxisMinStep, [])
    else
      (none, h.writeFriendly a.Unit
        ++ ChannelType.PutValue (ChannelType.Base a.Typ) h.byteOrder (a.Minimum.getD 0)
        ++ ChannelType.PutValue (ChannelType.Base a.Typ) h.byteOrder (a.Step.getD 0))

/-- AxisValue from the unnamed axis file: absence for a nil axis, an Unknown type or
a missing minimum or step, else the kind-dispatched arithmetic. -/
def axisValue (a : Option Axis) (i : Nat) : Option AxisVal :=
  match a with
  | none => none
  | some a =>
    if a.Typ = ChannelUnknown ∨ a.Minimum = none ∨ a.Step = none then none
    else ChannelType.AxisValue a.Typ i (a.Minimum.getD 0) (a.Step.getD 0)

end Part000

namespace AxisGo

/-- Write from axis.go: a present axis with base kind Unknown is a format error; a nil
axis writes only the Unknown tag; a present axis missing minimum or step is a format
error before any byte is written; otherwise the base tag, the unit string and the two
value patterns are emitted. -/
def axisWrite (a : Option Axis) (h : Header) : Option String × List Byte :=
  match a with
  | none => (none, h.writeTag ChannelUnknown)
  | some a =>
    if ChannelType.Base a.Typ = ChannelUnknown then (some errAxisUnknown, [])
    else if a.Minimum = none ∨ a.Step = none then (some errAxisMinStep, [])
    else
      (none, h.writeTag (ChannelType.Base a.Typ) ++ h.writeFriendly a.Unit
        ++ ChannelType.PutValue (ChannelType.Base a.Typ) h.byteOrder (a.Minimum.getD 0)
        ++ ChannelType.PutValue (ChannelType.Base a.Typ) h.byteOrder (a.Step.getD 0))

/-- StepValue from axis.go: absence for a nil axis, an Unknown base kind or a missing
minimum or step, else the kind-dispatched arithmetic. -/
def stepValue (a : Option Axis) (i : Nat) : Option AxisVal :=
  match a with
  | none => none
  | some a =>
    if ChannelType.Base a.Typ = ChannelUnknown ∨ a.Minimum = none ∨ a.Step = none then none
    else ChannelType.AxisValue a.Typ i (a.Minimum.getD 0) (a.Step.getD 0)

end AxisGo

/-- Validity of a header: the spec allows an offset width of 4 or 8 bytes. -/
def headerValid (h : Header) : Prop :=
  h.offsetSize = 4 ∨ h.offsetSize = 8

instance (h : Header) : Decidable (headerValid h) := by
  unfold headerValid
  infer_instance

/-- Validity of a dimension as the round-trip claims assume it: positive size, a tile
size between 1 and the size, a size representable in the narrower offset field, a name
short enough for the 2-byte length prefix, a declared type that is one of the assigned
base kind codes with no flag bits, values absent for the Unknown kind, and value
patterns within the width of the declared kind. -/
def dimValid (d : Dimension) : Prop :=
  0 < d.Size ∧ 0 < d.TileSize ∧ d.TileSize ≤ d.Size ∧ d.Size < 2147483648 ∧
    d.Name.length < 65536 ∧ d.Typ < 18 ∧
    (d.Typ = ChannelUnknown → d.Minimum = none ∧ d.Step = none) ∧
    d.Minimum.getD 0 < 256 ^ ChannelType.Size d.Typ ∧
    d.Step.getD 0 < 256 ^ ChannelType.Size d.Typ

instance (d : Dimension) : Decidable (dimValid d) := by
  unfold dimValid
  infer_instance

theorem readFriendly_writeFriendly (h : Header) (s r : List Byte) (hs : s.length < 65536) :
    h.readFriendly (h.writeFriendly s ++ r) = some (s, r) := by
  unfold Header.readFriendly Header.writeFriendly
  rw [List.append_assoc,
    readBytes_append 2 _ _ (encodeNat_length h.byteOrder 2 s.length)]
  simp only [decodeNat_encodeNat]
  rw [Nat.mod_eq_of_lt (by norm_num; exact hs)]
  rw [readBytes_append s.length s r rfl]

theorem readOffset_writeOffset (h : Header) (n : Int) (r : List Byte)
    (hh : headerValid h) (h0 : 0 ≤ n) (hn : n < 2147483648) :
    h.readOffset (h.writeOffset n ++ r) = some (n, r) := by
  have hpow : (2147483648 : Int) ≤ ((256 ^ h.offsetSize : Nat) : Int) := by
    rcases hh with hw | hw <;> rw [hw] <;> norm_num
  have hmod : n % ((256 ^ h.offsetSize : Nat) : Int) = n :=
    Int.emod_eq_of_lt h0 (by omega)
  have htn : n.toNat < 256 ^ h.offsetSize := by omega
  unfold Header.readOffset Header.writeOffset
  rw [hmod, readBytes_append h.offsetSize _ _ (encodeNat_length h.byteOrder h.offsetSize n.toNat)]
  simp only [decodeNat_encodeNat]
  rw [Nat.mod_eq_of_lt htn, Int.toNat_of_nonneg h0]

theorem readTag_writeTag (h : Header) (t : Nat) (r : List Byte)
    (ht : t < 4294967296) :
    h.readTag (h.writeTag t ++ r) = some (t, r) := by
  unfold Header.readTag Header.writeTag
  rw [readBytes_append 4 _ _ (encodeNat_length h.byteOrder 4 t)]
  simp only [decodeNat_encodeNat]
  rw [Nat.mod_eq_of_lt (by norm_num; exact ht)]

theorem tag_value (t : Nat) (ht : t < 65536) (b1 b2 : Bool) :
    ChannelType.WithMax (ChannelType.WithMin t b1) b2
      = t + (if b1 then 65536 else 0) + (if b2 then 131072 else 0) := by
  unfold ChannelType.WithMin ChannelType.WithMax
  cases b1 <;> cases b2 <;> simp <;> omega

theorem Base_tag (t : Nat) (ht : t < 65536) (b1 b2 : Bool) :
    ChannelType.Base (ChannelType.WithMax (ChannelType.WithMin t b1) b2) = t := by
  rw [tag_value t ht b1 b2]
  unfold ChannelType.Base
  cases b1 <;> cases b2 <;> simp <;> omega

theorem HasMin_tag (t : Nat) (ht : t < 65536) (b1 b2 : Bool) :
    ChannelType.HasMin (ChannelType.WithMax (ChannelType.WithMin t b1) b2) = b1 := by
  rw [tag_value t ht b1 b2]
  unfold ChannelType.HasMin
  cases b1 <;> cases b2 <;> simp <;> omega

theorem HasMax_tag (t : Nat) (ht : t < 65536) (b1 b2 : Bool) :
    ChannelType.HasMax (ChannelType.WithMax (ChannelType.WithMin t b1) b2) = b2 := by
  rw [tag_value t ht b1 b2]
  unfold ChannelType.HasMax
  cases b1 <;> cases b2 <;> simp <;> omega

theorem tag_lt (t : Nat) (ht : t < 65536) (b1 b2 : Bool) :
    ChannelType.WithMax (ChannelType.WithMin t b1) b2 < 4294967296 := by
  rw [tag_value t ht b1 b2]
  cases b1 <;> cases b2 <;> simp <;> omega

theorem readValueIf_false (t : Nat) (bo : ByteOrder) (s : List Byte) :
    readValueIf false t bo s = some (none, s) := rfl

theorem readValueIf_encode (t : Nat) (bo : ByteOrder) (v : Nat) (r : List Byte)
    (hv : v < 256 ^ ChannelType.Size t) :
    readValueIf true t bo (encodeNat bo (ChannelType.Size t) v ++ r) = some (some v, r) := by
  unfold readValueIf ChannelType.Value
  rw [if_pos rfl,
    readBytes_append (ChannelType.Size t) _ _ (encodeNat_length bo (ChannelType.Size t) v)]
  simp only [decodeNat_encodeNat]
  rw [Nat.mod_eq_of_lt hv]

theorem readValueIf_encode_nil (t : Nat) (bo : ByteOrder) (v : Nat)
    (hv : v < 256 ^ ChannelType.Size t) :
    readValueIf true t bo (encodeNat bo (ChannelType.Size t) v) = some (some v, []) := by
  simpa using readValueIf_encode t bo v [] hv

theorem dimension_writeRead (d : Dimension) (h : Header)
    (hh : headerValid h) (hd : dimValid d) :
    (d.Write h).1 = none ∧ Dimension.Read h (d.Write h).2 = some (d, []) := by
  obtain ⟨nm, sz, ts, ty, mi, st⟩ := d
  obtain ⟨h1, h2, h3, h4, h5, h6, h7, h8, h9⟩ := hd
  simp only at h1 h2 h3 h4 h5 h6 h7 h8 h9
  have hc1 : ¬(sz ≤ 0 ∨ ts ≤ 0) := by omega
  have hc2 : ¬(sz < ts) := by omega
  have hty65536 : ty < 65536 := by omega
  have hbase : ChannelType.Base ty = ty := Nat.mod_eq_of_lt hty65536
  have e1 : ∀ r, h.readFriendly (h.writeFriendly nm ++ r) = some (nm, r) :=
    fun r => readFriendly_writeFriendly h nm r h5
  have e2 : ∀ r, h.readOffset (h.writeOffset sz ++ r) = some (sz, r) :=
    fun r => readOffset_writeOffset h sz r hh (by omega) h4
  have e3 : ∀ r, h.readOffset (h.writeOffset ts ++ r) = some (ts, r) :=
    fun r => readOffset_writeOffset h ts r hh (by omega) (by omega)
  refine ⟨by simp [Dimension.Write, hc1, hc2], ?_⟩
  by_cases hT : ty = ChannelUnknown
  · obtain ⟨hmn, hsn⟩ := h7 hT
    subst hmn hsn hT
    have e4 : h.readTag (h.writeTag ChannelUnknown) = some (ChannelUnknown, []) := by
      simpa using readTag_writeTag h ChannelUnknown [] (by norm_num [ChannelUnknown])
    have f1 : ChannelType.HasMin ChannelUnknown = false := rfl
    have f2 : ChannelType.HasMax ChannelUnknown = false := rfl
    have f3 : ChannelType.Base ChannelUnknown = ChannelUnknown := rfl
    simp only [Dimension.Write, if_neg hc1, if_neg hc2, List.append_assoc, List.append_nil,
      Dimension.Read, e1, e2, e3]
    simp only [ite_true, eq_self_iff_true, if_pos]
    simp only [e4, f1, f2, f3, Bool.false_and, readValueIf_false]
  · have hne : (ty == ChannelUnknown) = false := by simp [hT]
    have e4 : ∀ (b1 b2 : Bool) (r : List Byte),
        h.readTag (h.writeTag (ChannelType.WithMax (ChannelType.WithMin ty b1) b2) ++ r)
          = some (ChannelType.WithMax (ChannelType.WithMin ty b1) b2, r) :=
      fun b1 b2 r => readTag_writeTag h _ r (tag_lt ty hty65536 b1 b2)
    have e4n : ∀ (b1 b2 : Bool),
        h.readTag (h.writeTag (ChannelType.WithMax (ChannelType.WithMin ty b1) b2))
          = some (ChannelType.WithMax (ChannelType.WithMin ty b1) b2, []) :=
      fun b1 b2 => by simpa using e4 b1 b2 []
    have eb : ∀ (b1 b2 : Bool),
        ChannelType.Base (ChannelType.WithMax (ChannelType.WithMin ty b1) b2) = ty :=
      fun b1 b2 => Base_tag ty hty65536 b1 b2
    have em : ∀ (b1 b2 : Bool),
        ChannelType.HasMin (ChannelType.WithMax (ChannelType.WithMin ty b1) b2) = b1 :=
      fun b1 b2 => HasMin_tag ty hty65536 b1 b2
    have eM : ∀ (b1 b2 : Bool),
        ChannelType.HasMax (ChannelType.WithMax (ChannelType.WithMin ty b1) b2) = b2 :=
      fun b1 b2 => HasMax_tag ty hty65536 b1 b2
    rcases mi with _ | m <;> rcases st with _ | s <;>
      simp only [Option.getD_some, Option.getD_none] at h8 h9 <;>
      simp only [Dimension.Write, if_neg hc1, if_neg hc2, hT, ite_false,
        Option.isSome_some, Option.isSome_none, hbase, ChannelType.PutValue,
        List.append_assoc, List.append_nil, ne_eq, not_false_iff, ite_true,
        Dimension.Read, e1, e2, e3, e4, e4n, eb, em, eM, hne,
        Bool.and_true, Bool.and_false, Bool.true_and, Bool.false_and,
        Bool.not_false, Bool.not_true, readValueIf_false,
        readValueIf_encode ty h.byteOrder _ _ h8, readValueIf_encode ty h.byteOrder _ _ h9,
        readValueIf_encode_nil ty h.byteOrder _ h8, readValueIf_encode_nil ty h.byteOrder _ h9]


/-! Shared concrete inputs for the claim witnesses. -/

/-- A little-endian header with 4-byte offsets, as the Go tests construct. -/
def hW : Header := { byteOrder := .little, offsetSize := 4 }

/-- A valid dimension with an Int32 axis, minimum -128 (as a bit pattern) and step 1. -/
def dRT : Dimension :=
  { Name := [120], Size := 256, TileSize := 64, Typ := ChannelInt32,
    Minimum := some 4294967168, Step := some 1 }

/-- A valid dimension with a Uint16 axis carrying a minimum but no step. -/
def dAsym : Dimension :=
  { Name := [121], Size := 10, TileSize := 10, Typ := ChannelUint16,
    Minimum := some 100, Step := none }

/-- A dimension with size 0, rejected by Write but accepted by Tiles. -/
def dZero : Dimension :=
  { Name := [], Size := 0, TileSize := 10, Typ := ChannelUnknown,
    Minimum := none, Step := none }

theorem nat_ceil_div_zero (sn tn : Nat) (htn : 0 < tn) (hr : sn % tn = 0) :
    (sn + tn - 1) / tn = sn / tn := by
  have e : tn * (sn / tn) + sn % tn = sn := Nat.div_add_mod sn tn
  have h1 : sn + tn - 1 = tn * (sn / tn) + (tn - 1) := by omega
  rw [h1, Nat.mul_add_div htn, Nat.div_eq_of_lt (show tn - 1 < tn by omega)]
  omega

theorem nat_ceil_div_succ (sn tn : Nat) (htn : 0 < tn) (hr : sn % tn ≠ 0) :
    (sn + tn - 1) / tn = sn / tn + 1 := by
  have e : tn * (sn / tn) + sn % tn = sn := Nat.div_add_mod sn tn
  have hlt : sn % tn < tn := Nat.mod_lt _ htn
  have h1 : sn + tn - 1 = tn * (sn / tn) + (sn % tn + tn - 1) := by omega
  rw [h1, Nat.mul_add_div htn]
  have h2 : (sn % tn + tn - 1) / tn = 1 := by
    apply Nat.div_eq_of_lt_le <;> omega
  rw [h2]

theorem trunc_mul_add_mod (i s m W : Nat) : (i % W * s + m) % W = (i * s + m) % W := by
  conv_lhs => rw [← Nat.mod_add_mod]
  conv_rhs => rw [← Nat.mod_add_mod]
  rw [show i % W * s % W = i * s % W by
    conv_rhs => rw [Nat.mul_mod]
    conv_lhs => rw [Nat.mul_mod, Nat.mod_mod_of_dvd i dvd_rfl]]

/-- C1: for every valid dimension under a valid header, Write succeeds and Read on
the bytes Write emitted returns an equal Dimension with nothing left over: the same
name, size, tile size, base kind, and the same presence and values of minimum and
step. -/
theorem dimension_write_read_roundtrip (d : Dimension) (h : Header)
    (hh : headerValid h) (hd : dimValid d) :
    (d.Write h).1 = none ∧ Dimension.Read h (d.Write h).2 = some (d, []) :=
  dimension_writeRead d h hh hd

/-- C1 witness: the round trip at a concrete Int32-axis dimension. -/
theorem dimension_write_read_roundtrip_witness :
    (dRT.Write hW).1 = none ∧ Dimension.Read hW (dRT.Write hW).2 = some (dRT, []) :=
  dimension_write_read_roundtrip dRT hW (by decide) (by decide)

/-- C2: whenever the size and tile size pass validation, Write succeeds and the
number of bytes it emits equals HeaderSize, which is computed without any stream
interaction. -/
theorem write_length_eq_headerSize (d : Dimension) (h : Header)
    (h1 : 0 < d.Size) (h2 : 0 < d.TileSize) (h3 : d.TileSize ≤ d.Size) :
    (d.Write h).1 = none ∧ (d.Write h).2.length = d.HeaderSize h := by
  obtain ⟨nm, sz, ts, ty, mi, st⟩ := d
  simp only at h1 h2 h3
  have hc1 : ¬(sz ≤ 0 ∨ ts ≤ 0) := by omega
  have hc2 : ¬(sz < ts) := by omega
  refine ⟨by simp [Dimension.Write, hc1, hc2], ?_⟩
  by_cases hT : ty = ChannelUnknown <;>
    rcases mi with _ | m <;> rcases st with _ | s <;>
      simp [Dimension.Write, Dimension.HeaderSize, hc1, hc2, hT,
        Header.writeFriendly, Header.writeOffset, Header.writeTag, ChannelType.PutValue,
        encodeNat_length] <;> omega

/-- C2 witness: byte count equals HeaderSize at a concrete dimension. -/
theorem write_length_eq_headerSize_witness :
    (dRT.Write hW).1 = none ∧ (dRT.Write hW).2.length = dRT.HeaderSize hW :=
  write_length_eq_headerSize dRT hW (by decide) (by decide) (by decide)

/-- C3: Write rejects a nonpositive size, a nonpositive tile size, and a tile size
exceeding the size, with one of the two format errors, and in every such case the
stream receives no bytes. -/
theorem write_validation_no_bytes (d : Dimension) (h : Header)
    (hbad : d.Size ≤ 0 ∨ d.TileSize ≤ 0 ∨ d.Size < d.TileSize) :
    ((d.Write h).1 = some errDimSize ∨ (d.Write h).1 = some errDimTile)
      ∧ (d.Write h).2 = [] := by
  unfold Dimension.Write
  by_cases hc : d.Size ≤ 0 ∨ d.TileSize ≤ 0
  · rw [if_pos hc]
    exact ⟨Or.inl rfl, rfl⟩
  · have hlt : d.Size < d.TileSize := by omega
    rw [if_neg hc, if_pos hlt]
    exact ⟨Or.inr rfl, rfl⟩

/-- C3 witness: a size-0 dimension is rejected with no bytes emitted. -/
theorem write_validation_no_bytes_witness :
    ((dZero.Write hW).1 = some errDimSize ∨ (dZero.Write hW).1 = some errDimTile)
      ∧ (dZero.Write hW).2 = [] :=
  write_validation_no_bytes dZero hW (by decide)

/-- C4: for a valid dimension of non-Unknown kind with exactly one of minimum and
step present, the write-then-read composition restores exactly that asymmetric
presence; the two flags are not coupled. -/
theorem min_step_flag_independence (d : Dimension) (h : Header)
    (hh : headerValid h) (hd : dimValid d) (ht : d.Typ ≠ ChannelUnknown)
    (hasym : d.Minimum.isSome ≠ d.Step.isSome) :
    ∃ e : Dimension, Dimension.Read h (d.Write h).2 = some (e, [])
      ∧ e.Minimum = d.Minimum ∧ e.Step = d.Step :=
  ⟨d, (dimension_writeRead d h hh hd).2, rfl, rfl⟩

/-- C4 witness: minimum present and step absent survive the round trip at a concrete
Uint16-axis dimension. -/
theorem min_step_flag_independence_witness :
    ∃ e : Dimension, Dimension.Read hW (dAsym.Write hW).2 = some (e, [])
      ∧ e.Minimum = some 100 ∧ e.Step = none := by
  have h := min_step_flag_independence dAsym hW (by decide) (by decide) (by decide) (by decide)
  simpa [dAsym] using h

/-- C5 counterexample: under the embedded-axis layout of the unnamed axis file, a
present axis whose kind is Unknown is written successfully and its output consists of
the length-prefixed unit string, so a unit field is emitted for an Unknown kind,
against the claim that the unit appears only for non-Unknown kinds. -/
theorem unit_emitted_for_unknown_kind_axis :
    Part000.axisWrite
        (some { Typ := ChannelUnknown, Minimum := none, Step := none, Unit := [109] }) hW
      = (none, [1, 0, 109]) ∧ ([1, 0, 109] : List Byte) ≠ [] := by
  refine ⟨by decide, by decide⟩

/-- C5 amended: unit emission depends on the layout. In the standalone layout of
axis.go the unit is emitted exactly for a present axis of non-Unknown base kind: an
absent axis writes only the Unknown tag, a present Unknown-kind axis is rejected, and
every successful present write starts with the base tag followed by the unit. In the
embedded layout of the unnamed axis file the unit is emitted whenever the axis record
is present, regardless of kind: an absent axis writes nothing, and every successful
present write starts with the length-prefixed unit. -/
theorem unit_emission_by_layout :
    (∀ h : Header, Part000.axisWrite none h = (none, []))
  ∧ (∀ (a : Axis) (h : Header), (Part000.axisWrite (some a) h).1 = none →
      ∃ r, (Part000.axisWrite (some a) h).2 = h.writeFriendly a.Unit ++ r)
  ∧ (∀ (a : Axis) (h : Header), ChannelType.Base a.Typ = ChannelUnknown →
      (AxisGo.axisWrite (some a) h).1 = some errAxisUnknown
        ∧ (AxisGo.axisWrite (some a) h).2 = [])
  ∧ (∀ (a : Axis) (h : Header), (AxisGo.axisWrite (some a) h).1 = none →
      ∃ r, (AxisGo.axisWrite (some a) h).2
        = h.writeTag (ChannelType.Base a.Typ) ++ h.writeFriendly a.Unit ++ r)
  ∧ (∀ h : Header, AxisGo.axisWrite none h = (none, h.writeTag ChannelUnknown)) := by
  refine ⟨fun h => rfl, ?_, ?_, ?_, fun h => rfl⟩
  · intro a h hok
    simp only [Part000.axisWrite] at hok ⊢
    by_cases hc : a.Typ ≠ ChannelUnknown ∧ (a.Minimum = none ∨ a.Step = none)
    · rw [if_pos hc] at hok
      exact absurd hok (by simp)
    · rw [if_neg hc]
      exact ⟨ChannelType.PutValue (ChannelType.Base a.Typ) h.byteOrder (a.Minimum.getD 0)
          ++ ChannelType.PutValue (ChannelType.Base a.Typ) h.byteOrder (a.Step.getD 0),
        by simp [List.append_assoc]⟩
  · intro a h hb
    simp only [AxisGo.axisWrite]
    rw [if_pos hb]
    exact ⟨rfl, rfl⟩
  · intro a h hok
    simp only [AxisGo.axisWrite] at hok ⊢
    by_cases hb : ChannelType.Base a.Typ = ChannelUnknown
    · rw [if_pos hb] at hok
      exact absurd hok (by simp)
    · rw [if_neg hb] at hok ⊢
      by_cases hms : a.Minimum = none ∨ a.Step = none
      · rw [if_pos hms] at hok
        exact absurd hok (by simp)
      · rw [if_neg hms]
        exact ⟨ChannelType.PutValue (ChannelType.Base a.Typ) h.byteOrder (a.Minimum.getD 0)
          ++ ChannelType.PutValue (ChannelType.Base a.Typ) h.byteOrder (a.Step.getD 0),
        by simp [List.append_assoc]⟩

/-- C5 amended witness: a successful embedded-layout write at a concrete axis starts
with its length-prefixed unit. -/
theorem unit_emission_by_layout_witness :
    ∃ r, (Part000.axisWrite
        (some { Typ := ChannelInt16, Minimum := some 7, Step := some 9, Unit := [110] }) hW).2
      = hW.writeFriendly [110] ++ r :=
  unit_emission_by_layout.2.1
    { Typ := ChannelInt16, Minimum := some 7, Step := some 9, Unit := [110] } hW (by decide)

/-- C6: in both axis writers, a present axis of non-Unknown kind with an absent
minimum or step is reported as a format error and nothing reaches the stream. -/
theorem axis_write_incomplete_fails :
    (∀ (a : Axis) (h : Header), ChannelType.Base a.Typ ≠ ChannelUnknown →
        a.Minimum = none ∨ a.Step = none →
        Part000.axisWrite (some a) h = (some errAxisMinStep, []))
  ∧ (∀ (a : Axis) (h : Header), ChannelType.Base a.Typ ≠ ChannelUnknown →
        a.Minimum = none ∨ a.Step = none →
        AxisGo.axisWrite (some a) h = (some errAxisMinStep, [])) := by
  constructor
  · intro a h hb hms
    have hne : a.Typ ≠ ChannelUnknown := by
      intro e
      exact hb (by rw [e]; rfl)
    simp only [Part000.axisWrite]
    rw [if_pos ⟨hne, hms⟩]
  · intro a h hb hms
    simp only [AxisGo.axisWrite]
    rw [if_neg hb, if_pos hms]

/-- C6 witness: a Float32 axis with a missing step is rejected by both writers with
no bytes written. -/
theorem axis_write_incomplete_fails_witness :
    Part000.axisWrite (some { Typ := ChannelFloat32, Minimum := some 3, Step := none, Unit := [] }) hW
        = (some errAxisMinStep, [])
      ∧ AxisGo.axisWrite (some { Typ := ChannelFloat32, Minimum := some 3, Step := none, Unit := [] }) hW
        = (some errAxisMinStep, []) :=
  ⟨axis_write_incomplete_fails.1 _ hW (by decide) (by decide),
   axis_write_incomplete_fails.2 _ hW (by decide) (by decide)⟩

/-- C7: for a nonnegative size and a positive tile size, Tiles is the ceiling of
size over tile size, computed in integers; a size of 0 gives 0 tiles rather than an
error. -/
theorem tiles_eq_ceil (d : Dimension) (hs : 0 ≤ d.Size) (ht : 0 < d.TileSize) :
    d.Tiles = some (((d.Size.toNat + d.TileSize.toNat - 1) / d.TileSize.toNat : Nat) : Int) := by
  obtain ⟨nm, sz, ts, ty, mi, st⟩ := d
  simp only at hs ht ⊢
  obtain ⟨sn, rfl⟩ : ∃ n : Nat, sz = (n : Int) := ⟨sz.toNat, (Int.toNat_of_nonneg hs).symm⟩
  obtain ⟨tn, rfl⟩ : ∃ n : Nat, ts = (n : Int) := ⟨ts.toNat, (Int.toNat_of_nonneg (le_of_lt ht)).symm⟩
  have htn : 0 < tn := by exact_mod_cast ht
  have htnz : ((tn : Int)) ≠ 0 := by exact_mod_cast htn.ne.symm
  simp only [Dimension.Tiles, goDiv, goMod, if_neg htnz]
  have ed : Int.tdiv ((sn : Nat) : Int) ((tn : Nat) : Int) = (((sn / tn : Nat)) : Int) := rfl
  have emod : Int.tmod ((sn : Nat) : Int) ((tn : Nat) : Int) = (((sn % tn : Nat)) : Int) := rfl
  rw [ed, emod]
  simp only [Int.toNat_natCast]
  by_cases hr : sn % tn = 0
  · rw [if_neg (by simp [hr])]
    rw [nat_ceil_div_zero sn tn htn hr]
  · rw [if_pos (by exact_mod_cast hr)]
    rw [nat_ceil_div_succ sn tn htn hr]
    simp

/-- C7 witness: a dimension of size 0 with tile size 10 has 0 tiles. -/
theorem tiles_eq_ceil_witness : dZero.Tiles = some 0 := by
  have h := tiles_eq_ceil dZero (by decide) (by decide)
  simpa [dZero] using h

/-- C8: the axis-value computation returns absence, not zero, whenever the kind is
Unknown or the minimum or the step is absent, for every index, in both the inlined
Dimension form and the embedded Axis form (including the nil axis). -/
theorem axisValue_absent_is_none :
    (∀ (d : Dimension) (i : Nat),
        d.Typ = ChannelUnknown ∨ d.Minimum = none ∨ d.Step = none → d.AxisValue i = none)
  ∧ (∀ (a : Axis) (i : Nat),
        a.Typ = ChannelUnknown ∨ a.Minimum = none ∨ a.Step = none →
          Part000.axisValue (some a) i = none)
  ∧ (∀ i : Nat, Part000.axisValue none i = none) := by
  refine ⟨?_, ?_, fun i => rfl⟩
  · intro d i hc
    unfold Dimension.AxisValue
    rw [if_pos hc]
  · intro a i hc
    simp only [Part000.axisValue]
    rw [if_pos hc]

/-- C8 witness: a dimension with a kind but no step has no axis value at index 10. -/
theorem axisValue_absent_is_none_witness : dAsym.AxisValue 10 = none :=
  axisValue_absent_is_none.1 dAsym 10 (by decide)

/-- The eight native integer kind codes, 8 to 64 bits, signed and unsigned. -/
def nativeIntKinds : List Nat :=
  [ChannelInt8, ChannelUint8, ChannelInt16, ChannelUint16,
   ChannelInt32, ChannelUint32, ChannelInt64, ChannelUint64]

/-- C9: for every native integer kind with minimum and step present, the axis value
at every nonnegative index is the multiply-add i times step plus minimum reduced
modulo 2 to the kind bit width: overflow wraps, with no saturation and no error.
This holds in both files carrying the switch. -/
theorem axisValue_int_wraps (a : Axis) (k : Nat) (hk : k ∈ nativeIntKinds)
    (ha : a.Typ = k) (m s : Nat) (hm : a.Minimum = some m) (hs : a.Step = some s) (i : Nat) :
    Part000.axisValue (some a) i
        = some (.intVal ((i * s + m) % 2 ^ (8 * ChannelType.Size k)))
      ∧ AxisGo.stepValue (some a) i
        = some (.intVal ((i * s + m) % 2 ^ (8 * ChannelType.Size k))) := by
  obtain ⟨ty, mi, st, u⟩ := a
  simp only at ha hm hs
  subst ha hm hs
  simp only [nativeIntKinds, ChannelInt8, ChannelUint8, ChannelInt16, ChannelUint16,
    ChannelInt32, ChannelUint32, ChannelInt64, ChannelUint64,
    List.mem_cons, List.not_mem_nil, or_false] at hk
  rcases hk with rfl | rfl | rfl | rfl | rfl | rfl | rfl | rfl <;>
    constructor <;>
      simp [Part000.axisValue, AxisGo.stepValue, ChannelUnknown, ChannelType.Base,
        ChannelType.AxisValue, ChannelType.Size, trunc_mul_add_mod]

/-- C9 witness: an Int8 axis with minimum pattern 250 and step 3 at index 100 wraps
to pattern 38 in both forms. -/
theorem axisValue_int_wraps_witness :
    Part000.axisValue (some { Typ := ChannelInt8, Minimum := some 250, Step := some 3, Unit := [] }) 100
        = some (.intVal 38)
      ∧ AxisGo.stepValue (some { Typ := ChannelInt8, Minimum := some 250, Step := some 3, Unit := [] }) 100
        = some (.intVal 38) := by
  have h := axisValue_int_wraps
    { Typ := ChannelInt8, Minimum := some 250, Step := some 3, Unit := [] }
    ChannelInt8 (by decide) rfl 250 3 rfl rfl 100
  have he : (100 * 3 + 250) % 2 ^ (8 * ChannelType.Size ChannelInt8) = 38 := by decide
  rw [he] at h
  exact h

/-- C10: Tiles guards nothing: it faults exactly when the tile size is 0, is defined
for every nonzero tile size, returns 0 for a size of 0, and accepts dimensions that
Write rejects. -/
theorem tiles_no_validation :
    (∀ d : Dimension, d.TileSize = 0 → d.Tiles = none)
  ∧ (∀ d : Dimension, d.TileSize ≠ 0 → (d.Tiles).isSome = true)
  ∧ (∀ d : Dimension, d.TileSize ≠ 0 → d.Size = 0 → d.Tiles = some 0)
  ∧ (∃ (d : Dimension) (h : Header), (d.Write h).1.isSome = true ∧ d.Tiles = some 0) := by
  refine ⟨?_, ?_, ?_, ⟨dZero, hW, by decide, by decide⟩⟩
  · intro d h0
    simp [Dimension.Tiles, goDiv, goMod, h0]
  · intro d hne
    simp only [Dimension.Tiles, goDiv, goMod, if_neg hne]
    split <;> rfl
  · intro d hne h0
    simp [Dimension.Tiles, goDiv, goMod, hne, h0, Int.zero_tmod]

/-- C10 witness: a tile size of 0 faults while a tile size of 10 with size 0 gives
0 tiles. -/
theorem tiles_no_validation_witness :
    ({ Name := [], Size := 7, TileSize := 0, Typ := ChannelUnknown,
        Minimum := none, Step := none } : Dimension).Tiles = none
      ∧ dZero.Tiles = some 0 :=
  ⟨tiles_no_validation.1 _ rfl, tiles_no_validation.2.2.1 dZero (by decide) rfl⟩


end Gopixi
